import Mathlib

/-!
# CCSL: shallow embedding and verification

A shallow embedding in Lean 4 of the CCSL (Code Contribution Settlement
License) C++ core: the metric evaluation system (`metrics.cpp`), the
license/contribution registry and payment ledger (`license.cpp`), the
Bitcoin payment manager and recurring subscriptions (`payment.cpp`), and
the wallet-address syntax check (`utility.cpp`).

Modelling conventions:
* C++ `double` is modelled as `ℚ` (all arithmetic in the source is
  `+ - * /`, `min`, `max`, `abs` on small values, faithfully mirrored on
  rationals).
* C++ `std::string` is modelled as `String`, processed through its
  underlying `List Char`.
* Wall-clock timestamps are modelled as `Int` (hours), passed explicitly
  to the functions that call `std::chrono::system_clock::now()`.
* `generateUUID()` (randomness) is modelled as an explicit parameter.
* Throwing `std::invalid_argument` is modelled as `Except CcslError`.
* Stateful member functions become explicit state-passing functions on
  the structure holding the member variables.
-/

namespace CCSL

/-- Errors thrown as `std::invalid_argument` in the C++ source. -/
inductive CcslError where
  | invalidArgument (msg : String)
deriving DecidableEq, Repr

/-! ## utility.cpp -/

/-- `[a-zA-Z0-9]` character class of the `std::regex` in
`validateBitcoinAddress` (ECMAScript syntax, ASCII ranges). -/
def isAlnumChar (c : Char) : Bool :=
  ('a' ≤ c && c ≤ 'z') || ('A' ≤ c && c ≤ 'Z') || ('0' ≤ c && c ≤ '9')

/-- First character of the list equals `ch` (`address[0] == ch` in C++;
the C++ code only indexes strings whose length was already checked). -/
def firstCharIs (l : List Char) (ch : Char) : Bool :=
  match l with
  | [] => false
  | c :: _ => c = ch

/-- `address.substr(0, 3) == "bc1"`. -/
def startsWithBc1 (l : List Char) : Bool :=
  match l with
  | 'b' :: 'c' :: '1' :: _ => true
  | _ => false

/-- `validateBitcoinAddress` (`utility.cpp:73-90`): length in `[25,34]`,
first character `'1'` or `'3'` or prefix `"bc1"`, and the whole string
matches `^[a-zA-Z0-9]+$`. -/
def validateBitcoinAddress (address : String) : Bool :=
  let cs := address.data
  if cs.length < 25 || cs.length > 34 then
    false
  else if !(firstCharIs cs '1' || firstCharIs cs '3' || startsWithBc1 cs) then
    false
  else
    !cs.isEmpty && cs.all isAlnumChar

/-! ## license.cpp : metric evaluations and contributions -/

/-- `MetricType` enumeration (`license.hpp`). -/
inductive MetricType where
  | IMPACT
  | SIMPLICITY
  | CLEANNESS
  | COMMENT
  | CREDITABILITY
  | NOVELTY
deriving DecidableEq, Repr

/-- `MetricEvaluation` struct: metric type, value, rationale. -/
structure MetricEvaluation where
  type : MetricType
  value : ℚ
  rationale : String
deriving DecidableEq, Repr

/-- `CodeContribution` member state (`license.hpp`). -/
structure CodeContribution where
  m_contributor : String
  m_fileId : String
  m_lineStart : Int
  m_lineEnd : Int
  m_evaluations : List MetricEvaluation
deriving DecidableEq, Repr

/-- The `CodeContribution` constructor (`license.cpp:15-37`): validates
its arguments and throws `std::invalid_argument` in the checked order. -/
def CodeContribution.make (contributor fileId : String)
    (lineStart lineEnd : Int) : Except CcslError CodeContribution :=
  if lineStart > lineEnd then
    .error (.invalidArgument "Start line must be less than or equal to end line")
  else if contributor = "" then
    .error (.invalidArgument "Contributor name cannot be empty")
  else if fileId = "" then
    .error (.invalidArgument "File ID cannot be empty")
  else
    .ok { m_contributor := contributor, m_fileId := fileId,
          m_lineStart := lineStart, m_lineEnd := lineEnd, m_evaluations := [] }

/-- The `std::find_if` + replace-or-`push_back` body of
`CodeContribution::addMetricEvaluation` (`license.cpp:39-51`): replace
the first evaluation with the same `type`, else append. -/
def replaceByType (evals : List MetricEvaluation) (evaluation : MetricEvaluation) :
    List MetricEvaluation :=
  match evals with
  | [] => [evaluation]
  | e :: rest =>
    if e.type = evaluation.type then evaluation :: rest
    else e :: replaceByType rest evaluation

/-- `CodeContribution::addMetricEvaluation` (`license.cpp:39-51`). -/
def CodeContribution.addMetricEvaluation (c : CodeContribution)
    (evaluation : MetricEvaluation) : CodeContribution :=
  { c with m_evaluations := replaceByType c.m_evaluations evaluation }

/-- `CodeContribution::calculateValue` (`license.cpp:53-65`): 0 when no
evaluations are attached, else the mean of the attached values. -/
def CodeContribution.calculateValue (c : CodeContribution) : ℚ :=
  if c.m_evaluations = [] then 0
  else ((c.m_evaluations.map (·.value)).sum) / c.m_evaluations.length

/-! ## license.cpp : PaymentManager -/

/-- `PaymentManager` member state: wallet address and the
`std::map<std::string, double>` of cumulative payments, modelled as an
association list. -/
structure PaymentManager where
  m_walletAddress : String
  m_payments : List (String × ℚ)
deriving DecidableEq, Repr

/-- `m_payments[contributor] += amount` on the `std::map`: add to the
existing entry or default-insert `0.0` and add. -/
def mapAdd (m : List (String × ℚ)) (k : String) (v : ℚ) : List (String × ℚ) :=
  match m with
  | [] => [(k, v)]
  | (k', v') :: rest =>
    if k' = k then (k', v' + v) :: rest
    else (k', v') :: mapAdd rest k v

/-- Map lookup with the `0.0` default used by
`getTotalPaymentsForContributor`. -/
def mapLookup (m : List (String × ℚ)) (k : String) : ℚ :=
  match m with
  | [] => 0
  | (k', v') :: rest => if k' = k then v' else mapLookup rest k

/-- `PaymentManager::recordPayment` (`license.cpp:76-86`): rejects a
non-positive amount (returning `false` with the state untouched), else
accumulates the amount under the contribution's contributor. -/
def PaymentManager.recordPayment (pm : PaymentManager)
    (contribution : CodeContribution) (amount : ℚ) : PaymentManager × Bool :=
  if amount ≤ 0 then (pm, false)
  else
    ({ pm with m_payments := mapAdd pm.m_payments contribution.m_contributor amount }, true)

/-- `PaymentManager::getTotalPaymentsForContributor` (`license.cpp:88-94`). -/
def PaymentManager.getTotalPaymentsForContributor (pm : PaymentManager)
    (contributor : String) : ℚ :=
  mapLookup pm.m_payments contributor

/-! ## license.cpp : License -/

/-- `License` member state (the default `PaymentManager` wallet is the
hard-coded address of `license.cpp:120`). -/
structure License where
  m_projectName : String
  m_licenseKey : String
  m_contributions : List CodeContribution
  m_paymentManager : PaymentManager
deriving DecidableEq, Repr

/-- The overlap predicate inside `License::registerContribution`
(`license.cpp:134-142`): same `fileId` and the new range's start or end
falls inside the existing range. -/
def contributionConflicts (c contribution : CodeContribution) : Bool :=
  c.m_fileId = contribution.m_fileId &&
    ((contribution.m_lineStart ≥ c.m_lineStart && contribution.m_lineStart ≤ c.m_lineEnd) ||
     (contribution.m_lineEnd ≥ c.m_lineStart && contribution.m_lineEnd ≤ c.m_lineEnd))

/-- `License::registerContribution` (`license.cpp:132-151`): reject when
some registered contribution conflicts, else append. -/
def License.registerContribution (lic : License) (contribution : CodeContribution) :
    License × Bool :=
  if lic.m_contributions.any (fun c => contributionConflicts c contribution) then
    (lic, false)
  else
    ({ lic with m_contributions := lic.m_contributions ++ [contribution] }, true)

/-- Two closed integer intervals `[s₁,e₁]` and `[s₂,e₂]` intersect. -/
def rangesIntersect (s₁ e₁ s₂ e₂ : Int) : Prop :=
  ∃ x : Int, s₁ ≤ x ∧ x ≤ e₁ ∧ s₂ ≤ x ∧ x ≤ e₂

/-! ## payment.cpp : BitcoinPaymentManager -/

/-- `PaymentTransaction` struct (`payment.hpp`); the timestamp is an
abstract instant (`Int`). -/
structure PaymentTransaction where
  transactionId : String
  sourceWallet : String
  destinationWallet : String
  amount : ℚ
  timestamp : Int
  contributionId : String
  verified : Bool
deriving DecidableEq, Repr

/-- `BitcoinPaymentManager` member state. -/
structure BitcoinPaymentManager where
  m_apiKey : String
  m_transactions : List PaymentTransaction
deriving DecidableEq, Repr

/-- `BitcoinPaymentManager::sendPayment` (`payment.cpp:32-100`), up to
the point where the future is returned.  The `generateUUID()` call and
`system_clock::now()` are explicit parameters `uuid` and `now`.  The
three `std::invalid_argument` throws happen before the transaction
record is created and stored, so on error the state is unchanged; on
success the record (with `verified := false`) is appended and the
transaction id is produced.  The detached verification thread is not
part of this synchronous step. -/
def BitcoinPaymentManager.sendPayment (pm : BitcoinPaymentManager)
    (sourceWallet destinationWallet : String) (amount : ℚ)
    (contributionId : String) (uuid : String) (now : Int) :
    BitcoinPaymentManager × Except CcslError String :=
  if !validateBitcoinAddress sourceWallet then
    (pm, .error (.invalidArgument "Invalid source wallet address"))
  else if !validateBitcoinAddress destinationWallet then
    (pm, .error (.invalidArgument "Invalid destination wallet address"))
  else if amount ≤ 0 then
    (pm, .error (.invalidArgument "Payment amount must be greater than zero"))
  else
    let transaction : PaymentTransaction :=
      { transactionId := uuid, sourceWallet := sourceWallet,
        destinationWallet := destinationWallet, amount := amount,
        timestamp := now, contributionId := contributionId, verified := false }
    ({ pm with m_transactions := pm.m_transactions ++ [transaction] }, .ok uuid)

/-- `BitcoinPaymentManager::getTransactions` (`payment.cpp:118-120`). -/
def BitcoinPaymentManager.getTransactions (pm : BitcoinPaymentManager) :
    List PaymentTransaction :=
  pm.m_transactions

/-! ## payment.cpp : subscriptions -/

/-- The hard-coded placeholder source wallet of
`PaymentSubscription::processPayment` (`payment.cpp:175`). -/
def placeholderSourceWallet : String := "1A1zP1eP5QGefi2DMPTfTL5SLmv7DivfNa"

/-- `PaymentSubscription` member state; `m_nextPaymentDate` is an
instant measured in hours (`std::chrono::hours`). -/
structure PaymentSubscription where
  m_contributorId : String
  m_walletAddress : String
  m_subscriptionPeriod : Int
  m_nextPaymentDate : Int
deriving DecidableEq, Repr

/-- `PaymentSubscription::isPaymentDue` (`payment.cpp:188-191`): the
current time has reached the next payment date. -/
def PaymentSubscription.isPaymentDue (s : PaymentSubscription) (now : Int) : Bool :=
  now ≥ s.m_nextPaymentDate

/-- `PaymentSubscription::processPayment` (`payment.cpp:159-186`):
send a payment from the placeholder wallet to the subscription's wallet;
on success advance `m_nextPaymentDate` to `now + 24h · period` and
return `true`; when `sendPayment` throws, the `catch` block returns
`false` with the subscription unchanged. -/
def PaymentSubscription.processPayment (s : PaymentSubscription)
    (pm : BitcoinPaymentManager) (amount : ℚ) (uuid : String) (now : Int) :
    PaymentSubscription × BitcoinPaymentManager × Bool :=
  match pm.sendPayment placeholderSourceWallet s.m_walletAddress amount
      s.m_contributorId uuid now with
  | (pm', .ok _) =>
    ({ s with m_nextPaymentDate := now + 24 * s.m_subscriptionPeriod }, pm', true)
  | (pm', .error _) => (s, pm', false)

/-- `RecurringPaymentManager::processDuePayments` (`payment.cpp:230-246`):
walk the subscription list, process every due subscription with the
fixed placeholder amount `0.001` BTC, and count the successes.  `uuid`
supplies the fresh UUID for the `k`-th payment attempt. -/
def processDuePayments (subs : List PaymentSubscription)
    (pm : BitcoinPaymentManager) (uuid : Nat → String) (k : Nat) (now : Int) :
    List PaymentSubscription × BitcoinPaymentManager × Nat :=
  match subs with
  | [] => ([], pm, 0)
  | s :: rest =>
    if s.isPaymentDue now then
      let r := s.processPayment pm (1/1000) (uuid k) now
      let r2 := processDuePayments rest r.2.1 uuid (k + 1) now
      (r.1 :: r2.1, r2.2.1, (if r.2.2 then 1 else 0) + r2.2.2)
    else
      let r2 := processDuePayments rest pm uuid k now
      (s :: r2.1, r2.2.1, r2.2.2)

/-! ## metrics.cpp : scanning infrastructure

The evaluators in `metrics.cpp` extract lexical signals with
`std::regex` (ECMAScript grammar) iteration and line-by-line scans.
The regexes used are simple enough to be modelled exactly by one-pass
automata and skip-scans over `List Char`; each model below documents
the regex it implements and the ECMAScript semantics it relies on. -/

/-- ECMAScript `\w`: `[A-Za-z0-9_]`. -/
def isWordChar (c : Char) : Bool :=
  isAlnumChar c || c = '_'

/-- ECMAScript `\s` on ASCII input: space, `\t`, `\n`, `\v`, `\f`, `\r`
(also the whitespace set of `std::isspace` used by `operator>>`). -/
def isSpaceChar (c : Char) : Bool :=
  c = ' ' || c = '\t' || c = '\n' || c = '\x0b' || c = '\x0c' || c = '\r'

/-- `dropWhile` never lengthens a list (termination helper). -/
theorem dropWhile_length_le {α : Type} (p : α → Bool) (l : List α) :
    (l.dropWhile p).length ≤ l.length := by
  induction l with
  | nil => simp [List.dropWhile]
  | cons a as ih =>
    simp only [List.dropWhile]
    cases p a
    · simp
    · simp
      omega

/-- Termination measure fact for `splitLines`. -/
theorem splitLines_dec (p : Char → Bool) (c : Char) (rest : List Char) :
    (((c :: rest).dropWhile p).drop 1).length < (c :: rest).length := by
  have h := dropWhile_length_le p (c :: rest)
  simp only [List.length_drop, List.length_cons] at h ⊢
  omega

/-- `std::getline` splitting on `'\n'`: the final newline produces no
trailing empty line, and the empty string has no lines. -/
def splitLines : List Char → List (List Char)
  | [] => []
  | c :: rest =>
    ((c :: rest).takeWhile (fun x => !(x = '\n'))) ::
      splitLines (((c :: rest).dropWhile (fun x => !(x = '\n'))).drop 1)
termination_by l => l.length
decreasing_by
  exact splitLines_dec _ _ _

/-- `line.find_first_not_of(" \t\r\n") == npos`: the line is empty or
all whitespace (the blank-line skip used by every line scanner). -/
def isBlankLine (line : List Char) : Bool :=
  line.all (fun c => c = ' ' || c = '\t' || c = '\r' || c = '\n')

/-- State of the `\b<word>\s*\(` automaton. -/
inductive WPState where
  | neutral
  | inWord (buf : List Char)
  | afterWord (ok : Bool)

/-- One step of the `\b<word>\s*\(` automaton.  A maximal `\w`-run
always begins at a word boundary, `\w+` must consume the whole run (a
shorter match leaves a word character where `\(` is required), and two
matches can never overlap, so counting regex-iterator matches of
`\b\w+\s*\(` (with `accept` deciding which run bodies qualify) is a
single left-to-right pass. -/
def wpStep (accept : List Char → Bool) :
    WPState × Nat → Char → WPState × Nat
  | (.neutral, n), c =>
    if isWordChar c then (.inWord [c], n) else (.neutral, n)
  | (.inWord buf, n), c =>
    if isWordChar c then (.inWord (buf ++ [c]), n)
    else if c = '(' then (.neutral, if accept buf then n + 1 else n)
    else if isSpaceChar c then (.afterWord (accept buf), n)
    else (.neutral, n)
  | (.afterWord ok, n), c =>
    if c = '(' then (.neutral, if ok then n + 1 else n)
    else if isSpaceChar c then (.afterWord ok, n)
    else if isWordChar c then (.inWord [c], n)
    else (.neutral, n)

/-- Number of regex-iterator matches of `\b<run>\s*\(` where the word
run satisfies `accept`. -/
def countWordParen (accept : List Char → Bool) (code : List Char) : Nat :=
  (code.foldl (wpStep accept) (.neutral, 0)).2

/-- Number of maximal `\w`-runs satisfying `accept`: the match count of
a regex `\b(kw₁|…|kwₙ)\b` whose alternatives are all pure `\w` words is
the number of maximal word runs equal to one of the alternatives (the
boundary anchors force the match to cover a whole run). -/
def countWordRuns (accept : List Char → Bool) (code : List Char) : Nat :=
  let step : (Option (List Char) × Nat) → Char → Option (List Char) × Nat :=
    fun st c =>
      match st with
      | (none, n) => if isWordChar c then (some [c], n) else (none, n)
      | (some buf, n) =>
        if isWordChar c then (some (buf ++ [c]), n)
        else (none, if accept buf then n + 1 else n)
  match code.foldl step (none, 0) with
  | (none, n) => n
  | (some buf, n) => if accept buf then n + 1 else n

/-- Number of maximal runs of characters satisfying `p` (used to count
the whitespace-separated words extracted by `operator>>`). -/
def countRunsP (p : Char → Bool) (l : List Char) : Nat :=
  (l.foldl
    (fun (st : Bool × Nat) c =>
      if p c then (true, if st.1 then st.2 else st.2 + 1) else (false, st.2))
    (false, 0)).2

/-- Termination measure fact for `lexChunks`. -/
theorem lexChunks_dec (c : Char) (rest : List Char) :
    ((c :: rest).dropWhile (fun x => isWordChar x == isWordChar c)).length <
      (c :: rest).length := by
  have h : List.dropWhile (fun x => isWordChar x == isWordChar c) (c :: rest) =
      List.dropWhile (fun x => isWordChar x == isWordChar c) rest := by
    simp [List.dropWhile]
  rw [h]
  have h2 := dropWhile_length_le (fun x => isWordChar x == isWordChar c) rest
  simp only [List.length_cons]
  omega

/-- Split into maximal chunks of word / non-word characters, tagging
word chunks with `true`. -/
def lexChunks : List Char → List (Bool × List Char)
  | [] => []
  | c :: rest =>
    (isWordChar c, (c :: rest).takeWhile (fun x => isWordChar x == isWordChar c)) ::
      lexChunks ((c :: rest).dropWhile (fun x => isWordChar x == isWordChar c))
termination_by l => l.length
decreasing_by
  exact lexChunks_dec _ _

/-- Length consumed by the ECMAScript alternation
`(param|return|throws?|see|link|since|version|author|deprecated)` at
the start of `l`, trying the alternatives in order with the greedy
`s?`, or `none` if none matches. -/
def docTagLength (l : List Char) : Option Nat :=
  if "param".data.isPrefixOf l then some 5
  else if "return".data.isPrefixOf l then some 6
  else if "throws".data.isPrefixOf l then some 6
  else if "throw".data.isPrefixOf l then some 5
  else if "see".data.isPrefixOf l then some 3
  else if "link".data.isPrefixOf l then some 4
  else if "since".data.isPrefixOf l then some 5
  else if "version".data.isPrefixOf l then some 7
  else if "author".data.isPrefixOf l then some 6
  else if "deprecated".data.isPrefixOf l then some 10
  else none

/-- Regex-iterator match count of
`\@(param|return|throws?|see|link|since|version|author|deprecated)`:
every match starts at a literal `'@'`; on a match the scan resumes
after the consumed tag, otherwise at the next character. -/
def countDocTags : List Char → Nat
  | [] => 0
  | c :: rest =>
    if c = '@' then
      match docTagLength rest with
      | some k => 1 + countDocTags (rest.drop k)
      | none => countDocTags rest
    else countDocTags rest
termination_by l => l.length
decreasing_by
  all_goals simp only [List.length_drop, List.length_cons]
  all_goals omega

/-- `[^\s"'<>]` of the URL regex. -/
def isUrlChar (c : Char) : Bool :=
  !(isSpaceChar c || c = '"' || c.toNat = 39 || c = '<' || c = '>')

/-- `[0-9]`. -/
def isDigitChar (c : Char) : Bool :=
  '0' ≤ c && c ≤ '9'

/-- Length consumed at the start of `l` by `(RFC|IEEE|ISO)[- ][0-9]+`
restricted to one keyword `kw`. -/
def matchStdRef (kw l : List Char) : Option Nat :=
  if kw.isPrefixOf l then
    match l.drop kw.length with
    | sep :: after =>
      if sep = '-' || sep = ' ' then
        let digits := after.takeWhile isDigitChar
        if digits.isEmpty then none else some (kw.length + 1 + digits.length)
      else none
    | [] => none
  else none

/-- Length consumed at the start of `l` by the reference regex
`(http|https)://[^\s"'<>]+|(RFC|IEEE|ISO)[- ][0-9]+` (the alternation
`(http|https)` followed by `://` succeeds exactly on the literal
prefixes `http://` or `https://`), or `none`.  Any successful match
consumes at least 5 characters. -/
def matchRefLength (l : List Char) : Option Nat :=
  if "http://".data.isPrefixOf l then
    let path := (l.drop 7).takeWhile isUrlChar
    if path.isEmpty then none else some (7 + path.length)
  else if "https://".data.isPrefixOf l then
    let path := (l.drop 8).takeWhile isUrlChar
    if path.isEmpty then none else some (8 + path.length)
  else
    match matchStdRef "RFC".data l with
    | some k => some k
    | none =>
      match matchStdRef "IEEE".data l with
      | some k => some k
      | none => matchStdRef "ISO".data l

/-- Regex-iterator match count of the reference regex.  Every
successful match has positive length `k`, so continuing at
`rest.drop (k - 1)` is continuing right after the match. -/
def countRefs : List Char → Nat
  | [] => 0
  | c :: rest =>
    match matchRefLength (c :: rest) with
    | some k => 1 + countRefs (rest.drop (k - 1))
    | none => countRefs rest
termination_by l => l.length
decreasing_by
  all_goals simp only [List.length_drop, List.length_cons]
  all_goals omega

/-- Regex-iterator match count of `O\([^\)]*\)`: a literal `O(`, then
everything up to the first `)`.  When no closing parenthesis follows,
there is no match starting at this `O` and the scan resumes at the next
character. -/
def countBigO : List Char → Nat
  | [] => 0
  | 'O' :: '(' :: rest2 =>
    let after := rest2.dropWhile (fun x => !(x = ')'))
    if after.isEmpty then countBigO ('(' :: rest2)
    else 1 + countBigO (after.drop 1)
  | _ :: rest => countBigO rest
termination_by l => l.length
decreasing_by
  all_goals simp only [List.length_drop, List.length_cons]
  all_goals try omega
  all_goals have h := dropWhile_length_le (fun x => !(x = ')')) rest2
  all_goals omega

/-- First index of the substring `pat` in `l`
(`std::string::find`), or `none` for `npos`. -/
def findSub (pat l : List Char) : Option Nat :=
  match l with
  | [] => if pat.isPrefixOf ([] : List Char) then some 0 else none
  | _ :: rest =>
    if pat.isPrefixOf l then some 0
    else
      match findSub pat rest with
      | some k => some (k + 1)
      | none => none

/-- `std::min` on the rational model of `double` (kernel-reducible). -/
def minQ (a b : ℚ) : ℚ := if a ≤ b then a else b

/-- `std::max` on the rational model of `double` (kernel-reducible). -/
def maxQ (a b : ℚ) : ℚ := if a ≤ b then b else a

/-- `std::abs` on the rational model of `double` (kernel-reducible). -/
def absQ (a : ℚ) : ℚ := if a < 0 then -a else a

/-- `std::min(1.0, std::max(0.0, v))`, the final clamp applied by every
evaluator. -/
def clamp01 (x : ℚ) : ℚ := minQ 1 (maxQ 0 x)

/-- `std::max` on `int` (kernel-reducible). -/
def maxI (a b : Int) : Int := if a ≤ b then b else a

/-- Left-pad a numeral to six digits. -/
def padZeros6 (n : ℕ) : String :=
  let s := toString n
  String.mk (List.replicate (6 - s.length) '0') ++ s

/-- Model of `std::to_string(double)` (`"%f"`, six decimals, round to
nearest) on the rational model of `double`. -/
def ratToString6 (q : ℚ) : String :=
  let sign := if q < 0 then "-" else ""
  let n : ℕ := (absQ q * 1000000 + 1/2).floor.toNat
  sign ++ toString (n / 1000000) ++ "." ++ padZeros6 (n % 1000000)

/-! ## metrics.cpp : the six evaluators -/

/-- `ImpactEvaluator::evaluate` (`metrics.cpp:16-48`): counts matches
of `\b\w+\s*\(` (function calls) and `\b(if|for|while|switch)\s*\(`
(control structures), normalizes by the threshold 20 and clamps. -/
def ImpactEvaluator.evaluate (code : String) : MetricEvaluation :=
  let functionCalls := countWordParen (fun _ => true) code.data
  let controlStructures :=
    countWordParen
      (fun buf => ["if", "for", "while", "switch"].any (fun kw => buf == kw.data))
      code.data
  let rawScore : ℚ := ((functionCalls + controlStructures : ℕ) : ℚ) / 20
  { type := .IMPACT,
    value := clamp01 rawScore,
    rationale := "Impact score based on " ++ toString functionCalls ++
      " function calls and " ++ toString controlStructures ++ " control structures." }

/-- Brace-depth step of the nesting scan (`metrics.cpp:79-86`):
`'{'` increments the current depth and updates the maximum, `'}'`
decrements clamped at zero. -/
def braceStep : Int × Int → Char → Int × Int
  | (cur, mx), c =>
    if c = '{' then (cur + 1, maxI mx (cur + 1))
    else if c = '}' then (maxI 0 (cur - 1), mx)
    else (cur, mx)

/-- `SimplicityEvaluator::evaluate` (`metrics.cpp:55-115`): average
non-blank line length, maximum brace nesting depth, symbol density. -/
def SimplicityEvaluator.evaluate (code : String) : MetricEvaluation :=
  let ls := (splitLines code.data).filter (fun l => !isBlankLine l)
  let totalLines := ls.length
  let totalLineLength := (ls.map List.length).sum
  let maxNestingDepth := (ls.flatten.foldl braceStep (0, 0)).2
  let avgLineLength : ℚ :=
    if totalLines > 0 then (totalLineLength : ℚ) / totalLines else 0
  let symbolCount :=
    code.data.countP (fun c => ("+-*/=<>!&|^~%?:;[]()\x7b\x7d".data).contains c)
  let symbolDensity : ℚ :=
    if code.data.length > 0 then (symbolCount : ℚ) / code.data.length else 0
  let lineScore := maxQ 0 (1 - (avgLineLength - 40) / 40)
  let nestingScore := maxQ 0 (1 - (maxNestingDepth : ℚ) / 5)
  let symbolScore := maxQ 0 (1 - absQ (symbolDensity - 1/10) / (1/10))
  { type := .SIMPLICITY,
    value := clamp01 ((lineScore + nestingScore + symbolScore) / 3),
    rationale := "Simplicity score based on average line length (" ++
      ratToString6 avgLineLength ++ " chars), nesting depth (" ++
      toString maxNestingDepth ++ "), and symbol density." }

/-- State of the line-indentation scan of `CleanessEvaluator::evaluate`
(`metrics.cpp:129-173`). -/
structure IndentScan where
  totalLines : Nat
  indentedLines : Nat
  emptyLines : Nat
  hasInconsistentIndentation : Bool
  prevIndent : List Char

/-- Initial `IndentScan` state. -/
def indentScan0 : IndentScan :=
  { totalLines := 0, indentedLines := 0, emptyLines := 0,
    hasInconsistentIndentation := false, prevIndent := [] }

/-- One line of the indentation scan: count the line, classify blank
lines, extract the leading `' '`/`'\t'` indentation, flag mixed tabs
and spaces inside one indent and a tab/space flip between consecutive
indented lines. -/
def indentStep (st : IndentScan) (line : List Char) : IndentScan :=
  let st := { st with totalLines := st.totalLines + 1 }
  if isBlankLine line then { st with emptyLines := st.emptyLines + 1 }
  else
    let indent := line.takeWhile (fun c => c = ' ' || c = '\t')
    let hasTabs := indent.contains '\t'
    let hasSpaces := indent.contains ' '
    let st :=
      if hasTabs && hasSpaces then { st with hasInconsistentIndentation := true }
      else st
    let st :=
      if !indent.isEmpty then
        let st := { st with indentedLines := st.indentedLines + 1 }
        if !st.prevIndent.isEmpty &&
            ((st.prevIndent.headD ' ' = ' ' && indent.headD ' ' = '\t') ||
             (st.prevIndent.headD ' ' = '\t' && indent.headD ' ' = ' ')) then
          { st with hasInconsistentIndentation := true }
        else st
      else st
    { st with prevIndent := indent }

/-- Regex-iterator match count of `\)\s*\{` (`metrics.cpp:179-182`):
a `')'`, optional whitespace, then `'{'`; a further `')'` while
skipping whitespace restarts the attempt at that parenthesis. -/
def countParenBrace (l : List Char) : Nat :=
  (l.foldl
    (fun (st : Bool × Nat) c =>
      if st.1 then
        if c = '{' then (false, st.2 + 1)
        else if isSpaceChar c then (true, st.2)
        else if c = ')' then (true, st.2)
        else (false, st.2)
      else if c = ')' then (true, st.2)
      else (false, st.2))
    (false, 0)).2

/-- Match count of `\)\s*$[\r\n]\s*\{` (`metrics.cpp:184-187`).  In
ECMAScript grammar without the multiline option, `$` matches only at
the very end of the subject sequence, and no character (in particular
no `[\r\n]`) can be matched after it, so this regex never matches and
the count is always zero. -/
def countParenNewlineBrace (_l : List Char) : Nat := 0

/-- `CleanessEvaluator::evaluate` (`metrics.cpp:122-203`). -/
def CleanessEvaluator.evaluate (code : String) : MetricEvaluation :=
  let st := (splitLines code.data).foldl indentStep indentScan0
  let sameLine := countParenBrace code.data
  let nextLine := countParenNewlineBrace code.data
  let consistentBraceStyle :=
    ((sameLine == 0) || (nextLine == 0)) && (sameLine + nextLine != 0)
  let indentScore : ℚ := if st.hasInconsistentIndentation then 0 else 1
  let braceScore : ℚ := if consistentBraceStyle then 1 else 1/2
  let whitespaceProportion : ℚ :=
    if st.totalLines > 0 then (st.emptyLines : ℚ) / st.totalLines else 0
  let whitespaceScore :=
    minQ 1 (maxQ 0 (1 - absQ (whitespaceProportion - 2/10) / (2/10)))
  { type := .CLEANNESS,
    value := clamp01
      (indentScore * (5/10) + braceScore * (3/10) + whitespaceScore * (2/10)),
    rationale := "Cleanness score based on indentation consistency, brace style consistency, and whitespace usage." }

/-- State of the line scan of `CommentEvaluator::evaluate`
(`metrics.cpp:217-265`). -/
structure CommentScan where
  totalLines : Nat
  commentLines : Nat
  codeLines : Nat
  comments : List (List Char)
  inMultilineComment : Bool

/-- Initial `CommentScan` state. -/
def commentScan0 : CommentScan :=
  { totalLines := 0, commentLines := 0, codeLines := 0,
    comments := [], inMultilineComment := false }

/-- One line of the comment scan, following the source's branch order:
continuation of a multi-line comment, start of a multi-line comment
(closed on the same line only when `*/` occurs after `/*`), a `//`
line comment, else a code line. -/
def commentStep (st : CommentScan) (line : List Char) : CommentScan :=
  let st := { st with totalLines := st.totalLines + 1 }
  if isBlankLine line then st
  else if st.inMultilineComment then
    { st with commentLines := st.commentLines + 1,
              comments := st.comments ++ [line],
              inMultilineComment := !(findSub "*/".data line).isSome }
  else
    match findSub "/*".data line with
    | some startComment =>
      let st := { st with commentLines := st.commentLines + 1,
                          comments := st.comments ++ [line.drop startComment] }
      match findSub "*/".data line with
      | some endComment =>
        if startComment < endComment then { st with inMultilineComment := false }
        else { st with inMultilineComment := true }
      | none => { st with inMultilineComment := true }
    | none =>
      match findSub "//".data line with
      | some lineComment =>
        { st with commentLines := st.commentLines + 1,
                  comments := st.comments ++ [line.drop (lineComment + 2)] }
      | none => { st with codeLines := st.codeLines + 1 }

/-- `CommentEvaluator::evaluate` (`metrics.cpp:210-298`). -/
def CommentEvaluator.evaluate (code : String) : MetricEvaluation :=
  let st := (splitLines code.data).foldl commentStep commentScan0
  let commentDensity : ℚ :=
    if st.totalLines > 0 then (st.commentLines : ℚ) / st.totalLines else 0
  let commentWords :=
    (st.comments.map (fun c => countRunsP (fun x => !isSpaceChar x) c)).sum
  let avgCommentLength : ℚ :=
    if st.comments.length > 0 then (commentWords : ℚ) / st.comments.length else 0
  let densityScore := maxQ 0 (1 - absQ (commentDensity - 3/10) / (3/10))
  let lengthScore := minQ 1 (avgCommentLength / 8)
  { type := .COMMENT,
    value := clamp01 (densityScore * (6/10) + lengthScore * (4/10)),
    rationale := "Comment score based on density (" ++
      ratToString6 (commentDensity * 100) ++ "%) and average length (" ++
      ratToString6 avgCommentLength ++ " words)." }

/-- `CreditabilityEvaluator::evaluate` (`metrics.cpp:305-343`):
`\b(test|assert|expect|should|mock|stub|spy)\b` word matches, doc-tag
matches and external-reference matches. -/
def CreditabilityEvaluator.evaluate (code : String) : MetricEvaluation :=
  let testIndicators :=
    countWordRuns
      (fun buf => ["test", "assert", "expect", "should", "mock", "stub", "spy"].any
        (fun kw => buf == kw.data))
      code.data
  let docIndicators := countDocTags code.data
  let refIndicators := countRefs code.data
  let testScore : ℚ := minQ 1 ((testIndicators : ℚ) / 5)
  let docScore : ℚ := minQ 1 ((docIndicators : ℚ) / 10)
  let refScore : ℚ := minQ 1 ((refIndicators : ℚ) / 2)
  { type := .CREDITABILITY,
    value := clamp01 (testScore * (4/10) + docScore * (4/10) + refScore * (2/10)),
    rationale := "Creditability score based on evidence of testing (" ++
      toString testIndicators ++ "), documentation (" ++
      toString docIndicators ++ "), and references (" ++
      toString refIndicators ++ ")." }

/-- The single-word alternatives of the advanced-features regex of
`NoveltyEvaluator::evaluate` (`metrics.cpp:357`). -/
def advancedKeywords : List String :=
  ["template", "constexpr", "decltype", "concept", "requires", "noexcept",
   "auto", "lambda", "fold"]

/-- The design-pattern names of `metrics.cpp:363`. -/
def designPatternNames : List String :=
  ["Factory", "Builder", "Singleton", "Adapter", "Bridge", "Composite",
   "Decorator", "Facade", "Proxy", "Observer", "Strategy", "Command", "State",
   "Visitor", "Interpreter", "Iterator", "Mediator", "Memento", "Prototype"]

/-- Match count of the `structured\s+binding` alternative over the
chunked input: a word chunk `structured`, an all-whitespace separator
chunk, and a word chunk exactly `binding` (the trailing `\b` forces the
whole chunk to be the word). -/
def countStructuredBinding : List (Bool × List Char) → Nat
  | (true, b₁) :: (false, sep) :: (true, b₂) :: rest =>
    if b₁ == "structured".data && sep.all isSpaceChar && b₂ == "binding".data then
      1 + countStructuredBinding rest
    else countStructuredBinding ((false, sep) :: (true, b₂) :: rest)
  | _ :: rest => countStructuredBinding rest
  | [] => 0

/-- `NoveltyEvaluator::evaluate` (`metrics.cpp:350-388`). -/
def NoveltyEvaluator.evaluate (code : String) : MetricEvaluation :=
  let advancedFeatures :=
    countWordRuns
      (fun buf => advancedKeywords.any (fun kw => buf == kw.data)) code.data +
    countStructuredBinding (lexChunks code.data)
  let patternIndicators :=
    countWordRuns
      (fun buf => designPatternNames.any (fun kw => buf == kw.data)) code.data
  let complexityIndicators := countBigO code.data
  let advancedScore : ℚ := minQ 1 ((advancedFeatures : ℚ) / 3)
  let patternScore : ℚ := minQ 1 ((patternIndicators : ℚ) / 2)
  let complexityScore : ℚ := minQ 1 ((complexityIndicators : ℚ) / 1)
  { type := .NOVELTY,
    value := clamp01
      (advancedScore * (4/10) + patternScore * (4/10) + complexityScore * (2/10)),
    rationale := "Novelty score based on advanced language features (" ++
      toString advancedFeatures ++ "), design patterns (" ++
      toString patternIndicators ++ "), and algorithm analysis (" ++
      toString complexityIndicators ++ ")." }

/-- `MetricsEvaluator::evaluateAll` (`metrics.cpp:430-438`): run the six
evaluators created by `MetricEvaluatorFactory::createAll`
(`metrics.cpp:414-423`) in their fixed construction order. -/
def MetricsEvaluator.evaluateAll (code : String) : List MetricEvaluation :=
  [ImpactEvaluator.evaluate code,
   SimplicityEvaluator.evaluate code,
   CleanessEvaluator.evaluate code,
   CommentEvaluator.evaluate code,
   CreditabilityEvaluator.evaluate code,
   NoveltyEvaluator.evaluate code]

/-- `MetricsEvaluator::calculateValue` (`metrics.cpp:440-453`): 0 when
the evaluation list is empty, else the mean of the values. -/
def MetricsEvaluator.calculateValue (code : String) : ℚ :=
  let evaluations := MetricsEvaluator.evaluateAll code
  if evaluations = [] then 0
  else ((evaluations.map (·.value)).sum) / evaluations.length

/-! ## Claim theorems -/

/-- The wallet-address shape stated by the spec: length in `[25,34]`
inclusive, first character `'1'` or `'3'` or the three-character prefix
`"bc1"`, and every character alphanumeric. -/
def walletAddressSpec (s : String) : Prop :=
  (25 ≤ s.data.length ∧ s.data.length ≤ 34) ∧
  (firstCharIs s.data '1' = true ∨ firstCharIs s.data '3' = true ∨
    startsWithBc1 s.data = true) ∧
  (∀ c ∈ s.data, isAlnumChar c = true)

/-- C9: the wallet-address check accepts a string iff its length is
between 25 and 34 inclusive, its first character is `'1'` or `'3'` or it
starts with `"bc1"`, and every character is alphanumeric. -/
theorem validateBitcoinAddress_iff (s : String) :
    validateBitcoinAddress s = true ↔ walletAddressSpec s := by
  unfold validateBitcoinAddress walletAddressSpec
  simp only []
  split_ifs with h1 h2
  · simp only [Bool.or_eq_true, decide_eq_true_eq] at h1
    simp only [false_iff, not_and, not_or]
    rintro ⟨hl, hu⟩
    omega
  · simp only [Bool.not_eq_true', Bool.or_eq_true] at h2
    simp only [false_iff]
    rintro ⟨-, hfirst, -⟩
    rcases hfirst with h | h | h <;> simp [h] at h2
  · simp only [Bool.or_eq_true, decide_eq_true_eq, not_or, not_lt] at h1
    simp only [Bool.not_eq_true', Bool.not_eq_false, Bool.or_eq_true] at h2
    simp only [Bool.and_eq_true, Bool.not_eq_true', List.isEmpty_eq_false,
      List.all_eq_true]
    constructor
    · rintro ⟨hne, hall⟩
      exact ⟨⟨h1.1, h1.2⟩, or_assoc.mp h2, hall⟩
    · rintro ⟨hlen, hfirst, hall⟩
      refine ⟨?_, hall⟩
      cases hd : s.data with
      | nil => rw [hd] at hlen; simp at hlen
      | cons a as => simp

/-- C5: constructing a `CodeContribution` fails with a typed error iff
the contributor is empty, the fileId is empty, or `lineStart > lineEnd`;
all other inputs construct successfully (validation happens in the
constructor, before any registration). -/
theorem make_error_iff (contributor fileId : String) (lineStart lineEnd : Int) :
    (∃ e, CodeContribution.make contributor fileId lineStart lineEnd = .error e) ↔
      (contributor = "" ∨ fileId = "" ∨ lineStart > lineEnd) := by
  unfold CodeContribution.make
  split_ifs with h1 h2 h3
  · exact iff_of_true ⟨_, rfl⟩ (Or.inr (Or.inr h1))
  · exact iff_of_true ⟨_, rfl⟩ (Or.inl h2)
  · exact iff_of_true ⟨_, rfl⟩ (Or.inr (Or.inl h3))
  · refine iff_of_false ?_ ?_
    · rintro ⟨e, he⟩
      simp at he
    · rintro (h | h | h)
      · exact h2 h
      · exact h3 h
      · exact h1 h

/-- Lookup after `mapAdd`: the added amount lands exactly on the added
key; every other key is unchanged. -/
theorem mapLookup_mapAdd (m : List (String × ℚ)) (k c : String) (v : ℚ) :
    mapLookup (mapAdd m k v) c = mapLookup m c + (if c = k then v else 0) := by
  induction m with
  | nil =>
    by_cases h : k = c
    · simp [mapAdd, mapLookup, h]
    · simp [mapAdd, mapLookup, h, show ¬(c = k) from fun hc => h hc.symm]
  | cons kv rest ih =>
    obtain ⟨k', v'⟩ := kv
    by_cases h1 : k' = k
    · subst h1
      by_cases h2 : k' = c
      · subst h2
        simp [mapAdd, mapLookup]
      · simp [mapAdd, mapLookup, h2, show ¬(c = k') from fun hc => h2 hc.symm]
    · by_cases h2 : k' = c
      · subst h2
        simp [mapAdd, mapLookup, h1, show ¬(k' = k) from h1]
      · simp [mapAdd, mapLookup, h1, h2, ih]

/-- C10: `recordPayment` with a non-positive amount returns `false`
without touching the ledger; with a positive amount it returns `true`
and adds the amount exactly to the named contributor's total; a
contributor with no recorded payment reads as a total of 0. -/
theorem recordPayment_spec (pm : PaymentManager)
    (contribution : CodeContribution) (amount : ℚ) :
    (amount ≤ 0 → pm.recordPayment contribution amount = (pm, false)) ∧
    (0 < amount →
      (pm.recordPayment contribution amount).2 = true ∧
      ∀ c, ((pm.recordPayment contribution amount).1).getTotalPaymentsForContributor c =
        pm.getTotalPaymentsForContributor c +
          (if c = contribution.m_contributor then amount else 0)) ∧
    (∀ w c,
      PaymentManager.getTotalPaymentsForContributor
        { m_walletAddress := w, m_payments := [] } c = 0) := by
  refine ⟨?_, ?_, ?_⟩
  · intro h
    simp [PaymentManager.recordPayment, h]
  · intro h
    have h' : ¬ amount ≤ 0 := not_le.mpr h
    constructor
    · simp [PaymentManager.recordPayment, h']
    · intro c
      simp [PaymentManager.recordPayment, h',
        PaymentManager.getTotalPaymentsForContributor, mapLookup_mapAdd]
  · intro w c
    simp [PaymentManager.getTotalPaymentsForContributor, mapLookup]

/-- Concrete contribution used by witnesses. -/
def witnessContribution : CodeContribution :=
  { m_contributor := "Alice", m_fileId := "main.cpp", m_lineStart := 1,
    m_lineEnd := 10, m_evaluations := [] }

/-- Fresh ledger used by witnesses. -/
def witnessLedger : PaymentManager :=
  { m_walletAddress := "1A1zP1eP5QGefi2DMPTfTL5SLmv7DivfNa", m_payments := [] }

/-- Witness for C10 at concrete inputs. -/
theorem recordPayment_spec_witness :
    witnessLedger.recordPayment witnessContribution (-1) = (witnessLedger, false) ∧
    (witnessLedger.recordPayment witnessContribution 2).2 = true ∧
    ((witnessLedger.recordPayment witnessContribution 2).1).getTotalPaymentsForContributor
        "Alice" =
      witnessLedger.getTotalPaymentsForContributor "Alice" +
        (if "Alice" = witnessContribution.m_contributor then 2 else 0) :=
  ⟨(recordPayment_spec witnessLedger witnessContribution (-1)).1 (by norm_num),
   ((recordPayment_spec witnessLedger witnessContribution 2).2.1 (by norm_num)).1,
   ((recordPayment_spec witnessLedger witnessContribution 2).2.1 (by norm_num)).2 "Alice"⟩

/-- Fold a sequence of `recordPayment` calls over a ledger
(`recordPayment` is the only `PaymentManager` operation that mutates
the ledger; the report and total queries are `const`). -/
def runPaymentOps (pm : PaymentManager) (ops : List (CodeContribution × ℚ)) :
    PaymentManager :=
  ops.foldl (fun acc op => (acc.recordPayment op.1 op.2).1) pm

/-- Sum of the successfully recorded amounts (positive amounts on
contributions by the given contributor). -/
def sumRecordedFor (contributor : String) (ops : List (CodeContribution × ℚ)) : ℚ :=
  (ops.map (fun op =>
    if op.1.m_contributor = contributor ∧ 0 < op.2 then op.2 else 0)).sum

/-- One `recordPayment` never decreases any contributor's total. -/
theorem recordPayment_total_mono (pm : PaymentManager)
    (contribution : CodeContribution) (amount : ℚ) (c : String) :
    pm.getTotalPaymentsForContributor c ≤
      ((pm.recordPayment contribution amount).1).getTotalPaymentsForContributor c := by
  by_cases h : amount ≤ 0
  · simp [PaymentManager.recordPayment, h]
  · have hrec : ((pm.recordPayment contribution amount).1).getTotalPaymentsForContributor c =
        pm.getTotalPaymentsForContributor c +
          (if c = contribution.m_contributor then amount else 0) := by
      simp [PaymentManager.recordPayment, h,
        PaymentManager.getTotalPaymentsForContributor, mapLookup_mapAdd]
    rw [hrec]
    by_cases hc : c = contribution.m_contributor
    · rw [if_pos hc]
      have := not_le.mp h
      linarith
    · rw [if_neg hc]
      simp

/-- Running a batch of `recordPayment` calls adds exactly the sum of
the accepted amounts per contributor. -/
theorem runPaymentOps_total (pm : PaymentManager)
    (ops : List (CodeContribution × ℚ)) (c : String) :
    (runPaymentOps pm ops).getTotalPaymentsForContributor c =
      pm.getTotalPaymentsForContributor c + sumRecordedFor c ops := by
  induction ops generalizing pm with
  | nil => simp [runPaymentOps, sumRecordedFor]
  | cons op rest ih =>
    have hstep : runPaymentOps pm (op :: rest) =
        runPaymentOps ((pm.recordPayment op.1 op.2).1) rest := rfl
    rw [hstep, ih]
    simp only [sumRecordedFor, List.map_cons, List.sum_cons]
    by_cases h : op.2 ≤ 0
    · have hite : ¬ (op.1.m_contributor = c ∧ 0 < op.2) :=
        fun hc => absurd h (not_le.mpr hc.2)
      rw [if_neg hite]
      have hrec : (pm.recordPayment op.1 op.2).1 = pm := by
        simp [PaymentManager.recordPayment, h]
      rw [hrec]
      ring
    · have hrec : ((pm.recordPayment op.1 op.2).1).getTotalPaymentsForContributor c =
          pm.getTotalPaymentsForContributor c +
            (if c = op.1.m_contributor then op.2 else 0) := by
        simp [PaymentManager.recordPayment, h,
          PaymentManager.getTotalPaymentsForContributor, mapLookup_mapAdd]
      rw [hrec]
      by_cases hc : c = op.1.m_contributor
      · rw [if_pos hc, if_pos ⟨hc.symm, not_le.mp h⟩]
        ring
      · rw [if_neg hc, if_neg (fun hcc => hc hcc.1.symm)]
        ring

/-- C8: a contributor's ledger total never decreases under any
`recordPayment`, and after any sequence of operations on a fresh ledger
it equals the sum of the successfully recorded amounts for that
contributor. -/
theorem ledger_total_sum_mono :
    (∀ (pm : PaymentManager) (contribution : CodeContribution) (amount : ℚ)
        (c : String),
      pm.getTotalPaymentsForContributor c ≤
        ((pm.recordPayment contribution amount).1).getTotalPaymentsForContributor c) ∧
    (∀ (w c : String) (ops : List (CodeContribution × ℚ)),
      (runPaymentOps { m_walletAddress := w, m_payments := [] }
          ops).getTotalPaymentsForContributor c = sumRecordedFor c ops) := by
  constructor
  · exact recordPayment_total_mono
  · intro w c ops
    rw [runPaymentOps_total]
    simp [PaymentManager.getTotalPaymentsForContributor, mapLookup]


/-- A minimal valid license state for the registry analysis. -/
def overlapLicense0 : License :=
  { m_projectName := "TestProject", m_licenseKey := "TESTKEY1",
    m_contributions := [], m_paymentManager := witnessLedger }

/-- Registered contribution on `api.cpp`, lines `[100,200]`. -/
def existingContribution : CodeContribution :=
  { m_contributor := "Carol", m_fileId := "api.cpp", m_lineStart := 100,
    m_lineEnd := 200, m_evaluations := [] }

/-- New contribution `[50,250]`, strictly containing `[100,200]`. -/
def containingContribution : CodeContribution :=
  { m_contributor := "Dave", m_fileId := "api.cpp", m_lineStart := 50,
    m_lineEnd := 250, m_evaluations := [] }

/-- New contribution `[150,250]`, overlapping `[100,200]` at its start. -/
def overlappingContribution : CodeContribution :=
  { m_contributor := "Dave", m_fileId := "api.cpp", m_lineStart := 150,
    m_lineEnd := 250, m_evaluations := [] }

/-- New contribution `[201,300]`, adjacent but non-overlapping. -/
def adjacentContribution : CodeContribution :=
  { m_contributor := "Eve", m_fileId := "api.cpp", m_lineStart := 201,
    m_lineEnd := 300, m_evaluations := [] }

/-- The license after registering `[100,200]`. -/
def overlapLicense1 : License :=
  (overlapLicense0.registerContribution existingContribution).1

/-- C1 (code-bug evidence): with `[100,200]` registered on `api.cpp`,
`registerContribution` rejects the endpoint-overlapping `[150,250]` and
accepts the adjacent `[201,300]`, but it also accepts the strictly
containing `[50,250]` on the same file although the two closed ranges
intersect: the check at `license.cpp:140-141` only tests whether the
new range's endpoints fall inside an existing range, so the claimed
no-overlap invariant fails in the containment case. -/
theorem registerContribution_accepts_containment :
    (overlapLicense1.registerContribution containingContribution).2 = true ∧
    containingContribution.m_fileId = existingContribution.m_fileId ∧
    rangesIntersect existingContribution.m_lineStart existingContribution.m_lineEnd
      containingContribution.m_lineStart containingContribution.m_lineEnd ∧
    existingContribution ∈
      ((overlapLicense1.registerContribution containingContribution).1).m_contributions ∧
    containingContribution ∈
      ((overlapLicense1.registerContribution containingContribution).1).m_contributions ∧
    (overlapLicense1.registerContribution overlappingContribution).2 = false ∧
    (overlapLicense1.registerContribution adjacentContribution).2 = true := by
  exact ⟨by decide, by decide, ⟨100, by decide⟩, by decide, by decide, by decide, by decide⟩

/-- The kinds list after `replaceByType`: replacing an existing kind
keeps the kinds unchanged, a new kind is appended at the end. -/
theorem replaceByType_types (evals : List MetricEvaluation) (ev : MetricEvaluation) :
    (replaceByType evals ev).map (·.type) =
      if ev.type ∈ evals.map (·.type) then evals.map (·.type)
      else evals.map (·.type) ++ [ev.type] := by
  induction evals with
  | nil => simp [replaceByType]
  | cons e rest ih =>
    by_cases h : e.type = ev.type
    · simp [replaceByType, h]
    · have h' : ¬ (ev.type = e.type) := fun hc => h hc.symm
      simp only [replaceByType, if_neg h, List.map_cons, ih, List.mem_cons]
      by_cases hm : ev.type ∈ rest.map (·.type)
      · simp [hm, h']
      · simp [hm, h']

/-- Evaluation `Impact = 0.75` of the worked example. -/
def evalImpact075 : MetricEvaluation :=
  { type := .IMPACT, value := 3/4, rationale := "impact" }

/-- Evaluation `Simplicity = 0.85` of the worked example. -/
def evalSimplicity085 : MetricEvaluation :=
  { type := .SIMPLICITY, value := 17/20, rationale := "simplicity" }

/-- Replacement evaluation `Impact = 0.95` of the worked example. -/
def evalImpact095 : MetricEvaluation :=
  { type := .IMPACT, value := 19/20, rationale := "impact again" }

/-- Contribution with `{Impact = 0.75}` then `{Simplicity = 0.85}`. -/
def contribIS : CodeContribution :=
  (witnessContribution.addMetricEvaluation evalImpact075).addMetricEvaluation
    evalSimplicity085

/-- `contribIS` after re-evaluating Impact to `0.95`. -/
def contribISI : CodeContribution :=
  contribIS.addMetricEvaluation evalImpact095

/-- C4: `addMetricEvaluation` replaces by kind rather than appending,
preserving at-most-one-evaluation-per-kind, and `calculateValue` is the
mean over the distinct kinds: the worked example gives 0.8 for
`{Impact 0.75, Simplicity 0.85}`, then 0.9 after replacing Impact with
0.95 (still a mean of two values, not three), and a contribution with
no evaluations has value 0. -/
theorem addMetricEvaluation_replaces_by_kind :
    (∀ (c : CodeContribution) (ev : MetricEvaluation),
      (c.m_evaluations.map (·.type)).Nodup →
      (((c.addMetricEvaluation ev).m_evaluations).map (·.type)).Nodup) ∧
    contribIS.calculateValue = 4/5 ∧
    contribISI.calculateValue = 9/10 ∧
    contribISI.m_evaluations.length = 2 ∧
    (∀ (c : CodeContribution), c.m_evaluations = [] → c.calculateValue = 0) := by
  refine ⟨?_, ?_, ?_, rfl, ?_⟩
  · intro c ev h
    simp only [CodeContribution.addMetricEvaluation, replaceByType_types]
    split_ifs with hm
    · exact h
    · refine List.Nodup.append h (List.nodup_singleton _) ?_
      intro a ha hb
      simp only [List.mem_singleton] at hb
      subst hb
      exact hm ha
  · have h1 : contribIS.m_evaluations = [evalImpact075, evalSimplicity085] := rfl
    unfold CodeContribution.calculateValue
    rw [h1, if_neg (List.cons_ne_nil _ _)]
    norm_num [evalImpact075, evalSimplicity085]
  · have h1 : contribISI.m_evaluations = [evalImpact095, evalSimplicity085] := rfl
    unfold CodeContribution.calculateValue
    rw [h1, if_neg (List.cons_ne_nil _ _)]
    norm_num [evalImpact095, evalSimplicity085]
  · intro c h
    simp [CodeContribution.calculateValue, h]

/-- Witness for C4's replacement invariant at a concrete contribution. -/
theorem addMetricEvaluation_replaces_by_kind_witness :
    ((contribIS.addMetricEvaluation evalImpact095).m_evaluations.map (·.type)).Nodup :=
  addMetricEvaluation_replaces_by_kind.1 contribIS evalImpact095 (by decide)

/-- C3: with an invalid source wallet, an invalid destination wallet,
or a non-positive amount, `sendPayment` fails synchronously with a
typed `invalid_argument` error before any asynchronous work, and the
transaction log is exactly unchanged (no partial record). -/
theorem sendPayment_invalid_no_record (pm : BitcoinPaymentManager)
    (src dst : String) (amount : ℚ) (cid uuid : String) (now : Int)
    (h : validateBitcoinAddress src = false ∨ validateBitcoinAddress dst = false ∨
      amount ≤ 0) :
    (∃ msg, (pm.sendPayment src dst amount cid uuid now).2 =
      .error (.invalidArgument msg)) ∧
    ((pm.sendPayment src dst amount cid uuid now).1).getTransactions =
      pm.getTransactions := by
  unfold BitcoinPaymentManager.sendPayment
  split_ifs with h1 h2 h3
  · exact ⟨⟨_, rfl⟩, rfl⟩
  · exact ⟨⟨_, rfl⟩, rfl⟩
  · exact ⟨⟨_, rfl⟩, rfl⟩
  · exfalso
    simp only [Bool.not_eq_true', Bool.not_eq_false] at h1 h2
    rcases h with hh | hh | hh
    · rw [hh] at h1
      cases h1
    · rw [hh] at h2
      cases h2
    · exact h3 hh

/-- Empty payment engine for the C3 witness. -/
def witnessPaymentManager : BitcoinPaymentManager :=
  { m_apiKey := "test-api-key", m_transactions := [] }

/-- Witness for C3 at a concrete invalid call (source wallet fails the
syntax check). -/
theorem sendPayment_invalid_no_record_witness :
    (∃ msg, (witnessPaymentManager.sendPayment "wallet-too-short"
        placeholderSourceWallet 1 "contrib-1" "uuid-1" 0).2 =
      .error (.invalidArgument msg)) ∧
    ((witnessPaymentManager.sendPayment "wallet-too-short"
        placeholderSourceWallet 1 "contrib-1" "uuid-1" 0).1).getTransactions =
      witnessPaymentManager.getTransactions :=
  sendPayment_invalid_no_record witnessPaymentManager "wallet-too-short"
    placeholderSourceWallet 1 "contrib-1" "uuid-1" 0 (Or.inl (by decide))


/-- `clamp01` always lands in the closed unit interval. -/
theorem clamp01_mem (x : ℚ) : 0 ≤ clamp01 x ∧ clamp01 x ≤ 1 := by
  unfold clamp01 minQ maxQ
  split_ifs with h1 h2 h3 <;> constructor <;> linarith

/-- C2: every evaluation produced by `evaluateAll` has a value in
`[0,1]` (each evaluator ends in the `clamp01` of its weighted score),
and `calculateValue` equals the arithmetic mean of the six values
returned by `evaluateAll` (the empty-set `0.0` branch being
unreachable for the fixed set of six evaluators). -/
theorem evaluateAll_unit_interval_mean (code : String) :
    (∀ e ∈ MetricsEvaluator.evaluateAll code, 0 ≤ e.value ∧ e.value ≤ 1) ∧
    MetricsEvaluator.calculateValue code =
      ((MetricsEvaluator.evaluateAll code).map (·.value)).sum / 6 := by
  constructor
  · intro e he
    simp only [MetricsEvaluator.evaluateAll, List.mem_cons, List.not_mem_nil,
      or_false] at he
    rcases he with h | h | h | h | h | h
    all_goals subst h
    all_goals exact clamp01_mem _
  · unfold MetricsEvaluator.calculateValue
    rw [if_neg (show MetricsEvaluator.evaluateAll code ≠ [] from by
      simp [MetricsEvaluator.evaluateAll])]
    norm_num [show (MetricsEvaluator.evaluateAll code).length = 6 from rfl]

/-- Witness for C2 at a concrete code fragment and a concrete member of
its evaluation list. -/
theorem evaluateAll_unit_interval_mean_witness :
    0 ≤ (ImpactEvaluator.evaluate "int main() \x7b return 0; \x7d").value ∧
    (ImpactEvaluator.evaluate "int main() \x7b return 0; \x7d").value ≤ 1 :=
  (evaluateAll_unit_interval_mean "int main() \x7b return 0; \x7d").1
    (ImpactEvaluator.evaluate "int main() \x7b return 0; \x7d")
    (by simp [MetricsEvaluator.evaluateAll])

/-- C7: `evaluateAll` is deterministic.  In this embedding the six
evaluators are pure functions of the code string alone — no clock,
randomness or I/O appears anywhere in the metrics definitions — so two
calls on the same string yield identical evaluation lists (same kinds,
values and rationale strings), and the kinds come in the fixed factory
order. -/
theorem evaluateAll_deterministic (code : String) :
    MetricsEvaluator.evaluateAll code = MetricsEvaluator.evaluateAll code ∧
    (MetricsEvaluator.evaluateAll code).map (·.type) =
      [.IMPACT, .SIMPLICITY, .CLEANNESS, .COMMENT, .CREDITABILITY, .NOVELTY] :=
  ⟨rfl, rfl⟩


/-- `processPayment` at the fixed recurring amount `0.001` BTC: the
hard-coded source wallet is syntactically valid and the amount is
positive, so the send succeeds exactly when the subscription's wallet
passes the syntax check; on success the next payment date advances to
`now + 24·period` hours and one transaction is appended, on failure
(caught exception) subscription and log are unchanged. -/
theorem processPayment_eq (s : PaymentSubscription) (pm : BitcoinPaymentManager)
    (uuid : String) (now : Int) :
    s.processPayment pm (1/1000) uuid now =
      if validateBitcoinAddress s.m_walletAddress then
        ({ s with m_nextPaymentDate := now + 24 * s.m_subscriptionPeriod },
         { pm with m_transactions := pm.m_transactions ++
            [{ transactionId := uuid, sourceWallet := placeholderSourceWallet,
               destinationWallet := s.m_walletAddress, amount := 1/1000,
               timestamp := now, contributionId := s.m_contributorId,
               verified := false }] },
         true)
      else (s, pm, false) := by
  have hsrc : validateBitcoinAddress placeholderSourceWallet = true := by decide
  have hamt : ¬ ((1:ℚ)/1000 ≤ 0) := by norm_num
  unfold PaymentSubscription.processPayment BitcoinPaymentManager.sendPayment
  by_cases hd : validateBitcoinAddress s.m_walletAddress
  · rw [if_pos hd]
    simp only [hsrc, hd, Bool.not_true, Bool.false_eq_true, if_false]
    rw [if_neg hamt]
  · rw [Bool.not_eq_true] at hd
    rw [if_neg (by rw [hd]; simp : ¬ validateBitcoinAddress s.m_walletAddress = true)]
    simp only [hsrc, hd, Bool.not_true, Bool.not_false, Bool.false_eq_true,
      if_false, if_true]

/-- The per-subscription effect of one processing pass at time `now`:
due subscriptions whose wallet passes the syntax check are advanced by
their period from `now`, everything else is untouched. -/
def processDueStep (now : Int) (s : PaymentSubscription) : PaymentSubscription :=
  if s.isPaymentDue now && validateBitcoinAddress s.m_walletAddress then
    { s with m_nextPaymentDate := now + 24 * s.m_subscriptionPeriod }
  else s

/-- C6: `processDuePayments` processes each subscription independently:
every due subscription with a valid wallet has one payment sent and its
`nextPaymentDate` advanced by its period from `now` (not from the
missed date); a due subscription whose send fails keeps its old date,
is not counted, and does not stop the remaining subscriptions; non-due
subscriptions are untouched; the count is the number of successfully
paid due subscriptions, and exactly that many transactions are
appended to the log. -/
theorem processDuePayments_spec (subs : List PaymentSubscription)
    (pm : BitcoinPaymentManager) (uuid : Nat → String) (k : Nat) (now : Int) :
    (processDuePayments subs pm uuid k now).1 = subs.map (processDueStep now) ∧
    (processDuePayments subs pm uuid k now).2.2 =
      subs.countP
        (fun s => s.isPaymentDue now && validateBitcoinAddress s.m_walletAddress) ∧
    ((processDuePayments subs pm uuid k now).2.1.m_transactions).length =
      pm.m_transactions.length +
        subs.countP
          (fun s => s.isPaymentDue now && validateBitcoinAddress s.m_walletAddress) := by
  induction subs generalizing pm k with
  | nil => simp [processDuePayments]
  | cons s rest ih =>
    by_cases hdue : s.isPaymentDue now
    · have hp := processPayment_eq s pm (uuid k) now
      by_cases hok : validateBitcoinAddress s.m_walletAddress
      · rw [if_pos hok] at hp
        simp only [processDuePayments, hdue, if_true, hp]
        refine ⟨?_, ?_, ?_⟩
        · simp only [List.map_cons, (ih _ (k + 1)).1, processDueStep, hdue, hok,
            Bool.and_self, if_true]
        · simp only [(ih _ (k + 1)).2.1, List.countP_cons, hdue, hok, Bool.and_self,
            if_true]
          omega
        · simp only [(ih _ (k + 1)).2.2, List.countP_cons, hdue, hok, Bool.and_self,
            if_true, List.length_append, List.length_singleton]
          omega
      · rw [if_neg hok] at hp
        rw [Bool.not_eq_true] at hok
        simp only [processDuePayments, hdue, if_true, hp]
        refine ⟨?_, ?_, ?_⟩
        · simp only [List.map_cons, (ih _ (k + 1)).1, processDueStep, hok,
            Bool.and_false, Bool.false_eq_true, if_false]
        · simp only [(ih _ (k + 1)).2.1, List.countP_cons, hok, Bool.and_false]
          simp
        · simp only [(ih _ (k + 1)).2.2, List.countP_cons, hok, Bool.and_false]
          simp
    · have hdue' : s.isPaymentDue now = false := by
        revert hdue
        cases s.isPaymentDue now <;> simp
      simp only [processDuePayments, hdue', Bool.false_eq_true, if_false]
      refine ⟨?_, ?_, ?_⟩
      · simp only [List.map_cons, (ih pm k).1, processDueStep, hdue',
          Bool.false_and, Bool.false_eq_true, if_false]
      · simp only [(ih pm k).2.1, List.countP_cons, hdue', Bool.false_and]
        simp
      · simp only [(ih pm k).2.2, List.countP_cons, hdue', Bool.false_and]
        simp

end CCSL
